import Mathlib

/-!
Verification development for the `bore` web GUI process-supervision core
(`src/web_gui.rs`).  The Rust code is shallowly embedded: pure line
classification becomes a Lean function on `List Char`, the process record
store (`AppState.processes`, a `HashMap<String, u32>`) becomes an
association list, and each stateful handler (`start_client`,
`start_server`, `stop_client`, `stop_server`, the spawned monitor task,
and the websocket receive loop) becomes a function from its inputs to its
result, its updated store, and the ordered list of externally visible
actions (record insertion/removal, the OS kill signal, broadcasts).
-/

namespace BoreGui

/-! ## List-of-characters helpers mirroring the Rust string operations -/

/-- `consHead c pieces` prepends `c` to the first piece of a split
(helper for the splitting recursions; a split result is never empty). -/
def consHead (c : Char) : List (List Char) → List (List Char)
  | [] => [[c]]
  | w :: ws => (c :: w) :: ws

/-- Embedding of Rust `str::split(sep: char)`: splits at every occurrence
of `sep`; always returns at least one (possibly empty) piece. -/
def splitOnChar (sep : Char) : List Char → List (List Char)
  | [] => [[]]
  | c :: rest =>
    if c = sep then [] :: splitOnChar sep rest
    else consHead c (splitOnChar sep rest)

/-- Embedding of Rust `str::contains(pat: &str)`: substring test. -/
def containsSub (pat : List Char) : List Char → Bool
  | [] => pat.isEmpty
  | c :: rest => pat.isPrefixOf (c :: rest) || containsSub pat rest

/-- Fuel-indexed worker for `splitOnSub`; the fuel only encodes
termination (each step consumes at least one character, so any fuel at
least the length of the input gives the intended semantics). -/
def splitOnSubF (pat : List Char) : Nat → List Char → List (List Char)
  | _, [] => [[]]
  | 0, l => [l]
  | n + 1, c :: rest =>
    if pat.isPrefixOf (c :: rest) && !pat.isEmpty then
      [] :: splitOnSubF pat n ((c :: rest).drop pat.length)
    else
      consHead c (splitOnSubF pat n rest)

/-- Embedding of Rust `str::split(pat: &str)`: left-to-right scan emitting
the pieces between non-overlapping occurrences of `pat`. -/
def splitOnSub (pat l : List Char) : List (List Char) :=
  splitOnSubF pat l.length l

/-- Embedding of Rust `str::trim`: drop whitespace from both ends. -/
def trimChars (l : List Char) : List Char :=
  ((l.dropWhile Char.isWhitespace).reverse.dropWhile Char.isWhitespace).reverse

/-- Embedding of Rust `str::split_whitespace().next()`: the first maximal
run of non-whitespace characters, if any. -/
def firstToken (l : List Char) : Option (List Char) :=
  match (l.dropWhile Char.isWhitespace).takeWhile (fun c => !c.isWhitespace) with
  | [] => none
  | t => some t

/-- Embedding of Rust `str::parse::<u16>()`: an optional leading plus
sign, then one or more ASCII digits, value at most `65535`. -/
def parseU16 (l : List Char) : Option Nat :=
  let ds := match l with
    | '+' :: rest => rest
    | _ => l
  if !ds.isEmpty && ds.all Char.isDigit then
    let n := ds.foldl (fun a c => a * 10 + (c.toNat - 48)) 0
    if n ≤ 65535 then some n else none
  else none

/-! ## Output classifier (`start_client`, lines 197–213) -/

/-- Embedding of the inline stdout classifier of `start_client`:

* a line containing `listening at` takes the last `split(':')` piece,
  trims it, and parses it as `u16`;
* otherwise (`else if`) a line containing `remote_port=` takes the last
  `split("remote_port=")` piece, takes its first whitespace token, and
  parses it as `u16`;
* any other line produces no signal.

`start_server` has no such classifier: server output is only logged. -/
def classifyClient (line : String) : Option Nat :=
  let l := line.data
  if containsSub ("listening at".data) l then
    match (splitOnChar ':' l).getLast? with
    | some portStr => parseU16 (trimChars portStr)
    | none => none
  else if containsSub ("remote_port=".data) l then
    match (splitOnSub ("remote_port=".data) l).getLast? with
    | some portStr =>
      match firstToken portStr with
      | some tok => parseU16 tok
      | none => none
    | none => none
  else
    none

/-! ## Reference formulations of the classifier rules (spec wording) -/

/-- The substring after the last occurrence of `sep` (the whole string
when `sep` does not occur); spec wording for rule 1 of the classifier. -/
def afterLastChar (sep : Char) : List Char → List Char
  | [] => []
  | c :: rest =>
    if sep ∈ rest then afterLastChar sep rest
    else if c = sep then rest
    else c :: rest

/-- Fuel-indexed worker for `lastMatchSuffix` (same fuel discipline as
`splitOnSubF`). -/
def lastMatchSuffixF (pat : List Char) : Nat → List Char → Option (List Char)
  | _, [] => none
  | 0, _ => none
  | n + 1, c :: rest =>
    if pat.isPrefixOf (c :: rest) && !pat.isEmpty then
      some ((lastMatchSuffixF pat n ((c :: rest).drop pat.length)).getD
        ((c :: rest).drop pat.length))
    else
      lastMatchSuffixF pat n rest

/-- The suffix following the final occurrence of `pat` under a
left-to-right non-overlapping scan, `none` when `pat` never occurs;
spec wording for rule 2 of the classifier ("the token immediately
following that marker"). -/
def lastMatchSuffix (pat l : List Char) : Option (List Char) :=
  lastMatchSuffixF pat l.length l

/-- Reference classifier assembled from the spec's words, amended to the
source's `else if` structure: rule 1 applies to every line containing
`listening at` (substring after the last `:`, trimmed, parsed as `u16`);
rule 2 applies only to lines that do not contain `listening at` but do
contain `remote_port=` (token immediately following the final marker, up
to the next whitespace, parsed as `u16`). -/
def classifyRef (line : String) : Option Nat :=
  let l := line.data
  if containsSub ("listening at".data) l then
    parseU16 (trimChars (afterLastChar ':' l))
  else if containsSub ("remote_port=".data) l then
    match firstToken ((lastMatchSuffix ("remote_port=".data) l).getD l) with
    | some tok => parseU16 tok
    | none => none
  else
    none

/-! ## Sessions, events, and the process record store -/

/-- The two roles of supervised subprocesses; `start_client`/`stop_client`
and `start_server`/`stop_server` are textually identical up to the role
prefix of their event names, so they are embedded once, over a role. -/
inductive Role
  | client
  | server
deriving DecidableEq, Repr

/-- The broadcast events produced by the supervision core (the payloads
of `broadcast_message`): `{role}_started`, `{role}_exited`,
`{role}_stopped`, `{role}_log` (with the `is_error` flag that marks
stderr lines), and the client-only `client_port_assigned`. -/
inductive Event
  | started (r : Role) (id : String) (pid : Nat)
  | exited (r : Role) (id : String)
  | stopped (r : Role) (id : String)
  | log (r : Role) (id : String) (line : String) (isError : Bool)
  | portAssigned (id : String) (port : Nat) (fullAddress : String)
deriving DecidableEq, Repr

/-- The externally visible actions of a handler, in program order:
store mutations, the OS-level kill signal, and event broadcasts. -/
inductive Act
  | insertRecord (id : String) (pid : Nat)
  | removeRecord (id : String)
  | killSignal (pid : Nat)
  | broadcast (e : Event)
deriving DecidableEq, Repr

/-- The Process Record Store (`AppState.processes : HashMap<String, u32>`)
as an association list from session ids to process ids. -/
def Store : Type := List (String × Nat)

instance : DecidableEq Store := by
  unfold Store
  infer_instance

/-- `HashMap::get`-style lookup. -/
def Store.findPid : Store → String → Option Nat
  | [], _ => none
  | (k, v) :: rest, id => if k = id then some v else Store.findPid rest id

/-- Removal of a key (the effect of `HashMap::remove` on the mapping). -/
def Store.eraseRec : Store → String → Store
  | [], _ => []
  | (k, v) :: rest, id =>
    if k = id then Store.eraseRec rest id else (k, v) :: Store.eraseRec rest id

/-- `HashMap::insert`: the key now maps to the new value. -/
def Store.insertRec (st : Store) (id : String) (pid : Nat) : Store :=
  (id, pid) :: Store.eraseRec st id

/-! ## Control surface: start, stop, and the exit watcher -/

/-- Result of the spawn attempt (`cmd.spawn()`): on success the child
reports its OS pid, or `none` when the OS reports no process id
(`child.id()` returns `Option<u32>`). -/
structure SpawnOk where
  pid? : Option Nat
deriving DecidableEq, Repr

/-- Result type of the stop handlers: `Ok(json!({"success": true}))`
versus `Err(StatusCode::NOT_FOUND)`. -/
inductive StopResult
  | success
  | notFound
deriving DecidableEq, Repr

/-- Embedding of `stop_client` (lines 299–331) and `stop_server`
(lines 443–475): remove the id from the store; if a pid was present,
issue the OS kill (whose result is bound to `_` and discarded —
`killOutcome` is therefore never consulted), broadcast `{role}_stopped`,
and return success; otherwise return not-found with no action at all. -/
def stopSession (r : Role) (st : Store) (id : String) (killOutcome : Bool) :
    StopResult × Store × List Act :=
  match Store.findPid st id with
  | some pid =>
    (StopResult.success, Store.eraseRec st id,
      [Act.removeRecord id, Act.killSignal pid,
       Act.broadcast (Event.stopped r id)])
  | none => (StopResult.notFound, st, [])

/-- Embedding of the synchronous part of `start_client` (lines 180–296)
and `start_server` (lines 361–441): on spawn success, compute
`pid = child.id().unwrap_or(0)`, insert `{id, pid}` into the store,
broadcast `{role}_started`, and answer `Ok(json!({"id": id, "pid": pid}))`;
on spawn failure answer an error with no store change and no broadcast.
The freshly generated `Uuid::new_v4` session id is the `id` parameter. -/
def startSession (r : Role) (st : Store) (id : String)
    (spawn : Except Unit SpawnOk) :
    Except Unit (String × Nat) × Store × List Act :=
  match spawn with
  | Except.ok child =>
    let pid := child.pid?.getD 0
    (Except.ok (id, pid), Store.insertRec st id pid,
      [Act.insertRecord id pid, Act.broadcast (Event.started r id pid)])
  | Except.error _ => (Except.error (), st, [])

/-- Embedding of the tail of the monitor task (`start_client` lines
264–275, `start_server` lines 408–419): after `child.wait().await`, the
record is removed (the `remove` result is discarded) and `{role}_exited`
is broadcast unconditionally. -/
def exitFinish (r : Role) (st : Store) (id : String) : Store × List Act :=
  (Store.eraseRec st id,
    [Act.removeRecord id, Act.broadcast (Event.exited r id)])

/-! ## Per-line broadcasts of the monitor task -/

/-- Events broadcast for one client stdout line (lines 193–242): a
`client_port_assigned` signal when the classifier fires (carrying
`format!("{}:{}", to, port)`), then always the `client_log` event. -/
def clientStdoutLine (id toAddr line : String) : List Event :=
  (match classifyClient line with
   | some port => [Event.portAssigned id port (toAddr ++ ":" ++ toString port)]
   | none => [])
  ++ [Event.log Role.client id line false]

/-- Events broadcast for one client stderr line (lines 246–261): exactly
the `client_log` event with `is_error: true`. -/
def clientStderrLine (id line : String) : List Event :=
  [Event.log Role.client id line true]

/-- Events broadcast for one server output line (lines 370–406): exactly
the `server_log` event (`is_error: true` on the stderr loop); server
output is never classified. -/
def serverOutLine (id line : String) (isError : Bool) : List Event :=
  [Event.log Role.server id line isError]

/-! ## The monitor task over partially delivered streams -/

/-- A pipe as observed by the monitor task: the complete lines delivered
so far, and whether the stream has reached end-of-file. -/
structure StreamState where
  lines : List String
  closed : Bool
deriving DecidableEq, Repr

/-- The events the client monitor task (one `tokio::spawn`, lines
190–275) has broadcast, given how much of each stream is available: the
task runs the stdout `while` loop to end-of-stream *before* entering the
stderr loop, so stderr lines are only processed once stdout is closed. -/
def clientMonitorEvents (id toAddr : String) (out err : StreamState) : List Event :=
  let outEvs := (out.lines.map (fun line => clientStdoutLine id toAddr line)).flatten
  if out.closed then
    outEvs ++ (err.lines.map (fun line => clientStderrLine id line)).flatten
  else
    outEvs

/-- Server counterpart of `clientMonitorEvents` (lines 370–419): same
sequential two-loop structure. -/
def serverMonitorEvents (id : String) (out err : StreamState) : List Event :=
  let outEvs := (out.lines.map (fun line => serverOutLine id line false)).flatten
  if out.closed then
    outEvs ++ (err.lines.map (fun line => serverOutLine id line true)).flatten
  else
    outEvs

/-! ## The websocket receive loop (`handle_socket`, lines 124–145) -/

/-- The `WebSocketMessage` struct: `msg_type`, a JSON payload (kept as
its serialized text), and the optional correlation id field `id`. -/
structure WsMsg where
  msg_type : String
  dataJson : String
  id : Option String
deriving DecidableEq, Repr

/-- One inbound websocket frame as the receive loop discriminates it:
a text frame that parsed as a `WebSocketMessage`, a text frame that did
not parse, or a non-text frame. -/
inductive Inbound
  | textOk (m : WsMsg)
  | textBad
  | nonText
deriving DecidableEq, Repr

/-- The pong built for a ping: `{type:"pong", data:{}, id: ws_msg.id}`. -/
def pongReply (m : WsMsg) : WsMsg :=
  ⟨"pong", "\x7b\x7d", m.id⟩

/-- Embedding of the body of `recv_task`: replies (addressed to a
connection id) produced for one inbound frame.  Only a parsed text
message with `msg_type == "ping"` produces anything — a single pong sent
to this connection's own channel; everything else is ignored.  The
handler reads but never mutates the connection set or the process
store. -/
def recvHandle (connId : String) (m : Inbound) : List (String × WsMsg) :=
  match m with
  | Inbound.textOk w =>
    if w.msg_type = "ping" then [(connId, pongReply w)] else []
  | Inbound.textBad => []
  | Inbound.nonText => []

/-! ## Source-named entry points -/

/-- `start_client` (line 155). -/
def start_client (st : Store) (id : String) (spawn : Except Unit SpawnOk) :=
  startSession Role.client st id spawn

/-- `start_server` (line 333). -/
def start_server (st : Store) (id : String) (spawn : Except Unit SpawnOk) :=
  startSession Role.server st id spawn

/-- `stop_client` (line 299). -/
def stop_client (st : Store) (id : String) (killOutcome : Bool) :=
  stopSession Role.client st id killOutcome

/-- `stop_server` (line 443). -/
def stop_server (st : Store) (id : String) (killOutcome : Bool) :=
  stopSession Role.server st id killOutcome

/-! ## Helper lemmas about the splitting functions -/

theorem consHead_ne_nil (c : Char) (L : List (List Char)) : consHead c L ≠ [] := by
  cases L <;> simp [consHead]

theorem consHead_length (c : Char) (L : List (List Char)) (h : L ≠ []) :
    (consHead c L).length = L.length := by
  cases L with
  | nil => exact absurd rfl h
  | cons w ws => rfl

theorem getLast?_cons_of_ne_nil {α : Type} (a : α) (l : List α) (h : l ≠ []) :
    (a :: l).getLast? = l.getLast? := by
  cases l with
  | nil => exact absurd rfl h
  | cons b t => exact List.getLast?_cons_cons

theorem splitOnChar_ne_nil (sep : Char) (l : List Char) : splitOnChar sep l ≠ [] := by
  cases l with
  | nil => simp [splitOnChar]
  | cons c rest =>
    simp only [splitOnChar]
    split
    · simp
    · exact consHead_ne_nil c (splitOnChar sep rest)

theorem splitOnChar_of_not_mem (sep : Char) (l : List Char) (h : sep ∉ l) :
    splitOnChar sep l = [l] := by
  induction l with
  | nil => rfl
  | cons c rest ih =>
    have hc : ¬ c = sep := fun e => h (e ▸ List.mem_cons_self c rest)
    have hr : sep ∉ rest := fun m => h (List.mem_cons_of_mem c m)
    simp [splitOnChar, hc, ih hr, consHead]

theorem two_le_splitOnChar_of_mem (sep : Char) (l : List Char) (h : sep ∈ l) :
    2 ≤ (splitOnChar sep l).length := by
  induction l with
  | nil => cases h
  | cons c rest ih =>
    by_cases hc : c = sep
    · have h1 : 1 ≤ (splitOnChar sep rest).length :=
        List.length_pos.mpr (splitOnChar_ne_nil sep rest)
      simp [splitOnChar, hc]
      omega
    · have hr : sep ∈ rest := by
        rcases List.mem_cons.mp h with h' | h'
        · exact absurd h'.symm hc
        · exact h'
      have h2 := ih hr
      have hne := splitOnChar_ne_nil sep rest
      simp [splitOnChar, hc, consHead_length c _ hne]
      omega

theorem splitOnChar_getLast (sep : Char) (l : List Char) :
    (splitOnChar sep l).getLast? = some (afterLastChar sep l) := by
  induction l with
  | nil => rfl
  | cons c rest ih =>
    by_cases hm : sep ∈ rest
    · have h2 := two_le_splitOnChar_of_mem sep rest hm
      have hne := splitOnChar_ne_nil sep rest
      by_cases hc : c = sep
      · rw [show splitOnChar sep (c :: rest) = [] :: splitOnChar sep rest from by
          simp [splitOnChar, hc]]
        rw [getLast?_cons_of_ne_nil _ _ hne, ih]
        simp [afterLastChar, hm]
      · obtain ⟨w, ws, hws⟩ := List.exists_cons_of_ne_nil hne
        have hws2 : ws ≠ [] := by
          intro e
          rw [hws, e] at h2
          simp at h2
        rw [show splitOnChar sep (c :: rest) = consHead c (splitOnChar sep rest) from by
          simp [splitOnChar, hc]]
        rw [hws]
        show ((c :: w) :: ws).getLast? = _
        rw [getLast?_cons_of_ne_nil _ _ hws2]
        rw [hws, getLast?_cons_of_ne_nil _ _ hws2] at ih
        rw [ih]
        simp [afterLastChar, hm, hc]
    · have hr := splitOnChar_of_not_mem sep rest hm
      by_cases hc : c = sep
      · rw [show splitOnChar sep (c :: rest) = [] :: splitOnChar sep rest from by
          simp [splitOnChar, hc]]
        rw [hr]
        simp [afterLastChar, hm, hc]
      · rw [show splitOnChar sep (c :: rest) = consHead c (splitOnChar sep rest) from by
          simp [splitOnChar, hc]]
        rw [hr]
        simp [consHead, afterLastChar, hm, hc]

theorem splitOnSubF_ne_nil (pat : List Char) (n : Nat) (l : List Char) :
    splitOnSubF pat n l ≠ [] := by
  match n, l with
  | n, [] => simp [splitOnSubF]
  | 0, c :: rest => simp [splitOnSubF]
  | n + 1, c :: rest =>
    simp only [splitOnSubF]
    split
    · simp
    · exact consHead_ne_nil c (splitOnSubF pat n rest)

theorem splitOnSubF_of_lastMatchSuffixF_none (pat : List Char) (n : Nat) (l : List Char)
    (h : lastMatchSuffixF pat n l = none) : splitOnSubF pat n l = [l] := by
  induction n generalizing l with
  | zero =>
    cases l with
    | nil => rfl
    | cons c rest => rfl
  | succ n ih =>
    cases l with
    | nil => rfl
    | cons c rest =>
      by_cases hp : (pat.isPrefixOf (c :: rest) && !pat.isEmpty) = true
      · rw [show lastMatchSuffixF pat (n + 1) (c :: rest)
            = some ((lastMatchSuffixF pat n ((c :: rest).drop pat.length)).getD
                ((c :: rest).drop pat.length)) from by
          simp [lastMatchSuffixF, hp]] at h
        cases h
      · have h' : lastMatchSuffixF pat n rest = none := by
          rw [show lastMatchSuffixF pat (n + 1) (c :: rest)
              = lastMatchSuffixF pat n rest from by
            simp [lastMatchSuffixF, hp]] at h
          exact h
        rw [show splitOnSubF pat (n + 1) (c :: rest)
            = consHead c (splitOnSubF pat n rest) from by
          simp [splitOnSubF, hp]]
        rw [ih rest h']
        rfl

theorem two_le_splitOnSubF (pat : List Char) (n : Nat) (l : List Char) (s : List Char)
    (h : lastMatchSuffixF pat n l = some s) : 2 ≤ (splitOnSubF pat n l).length := by
  induction n generalizing l s with
  | zero =>
    cases l with
    | nil => cases h
    | cons c rest => cases h
  | succ n ih =>
    cases l with
    | nil => cases h
    | cons c rest =>
      by_cases hp : (pat.isPrefixOf (c :: rest) && !pat.isEmpty) = true
      · have h1 : 1 ≤ (splitOnSubF pat n ((c :: rest).drop pat.length)).length :=
          List.length_pos.mpr (splitOnSubF_ne_nil pat n ((c :: rest).drop pat.length))
        simp [splitOnSubF, hp]
        omega
      · have h' : lastMatchSuffixF pat n rest = some s := by
          rw [show lastMatchSuffixF pat (n + 1) (c :: rest)
              = lastMatchSuffixF pat n rest from by
            simp [lastMatchSuffixF, hp]] at h
          exact h
        have h2 := ih rest s h'
        have hne := splitOnSubF_ne_nil pat n rest
        simp [splitOnSubF, hp, consHead_length c _ hne]
        omega

theorem splitOnSubF_getLast (pat : List Char) (n : Nat) (l : List Char)
    (h : l.length ≤ n) :
    (splitOnSubF pat n l).getLast? = some ((lastMatchSuffixF pat n l).getD l) := by
  induction n generalizing l with
  | zero =>
    cases l with
    | nil => rfl
    | cons c rest => simp at h
  | succ n ih =>
    cases l with
    | nil => rfl
    | cons c rest =>
      by_cases hp : (pat.isPrefixOf (c :: rest) && !pat.isEmpty) = true
      · have hpat : 1 ≤ pat.length := by
          have h2 := (Bool.and_eq_true _ _).mp hp |>.2
          cases pat with
          | nil => simp [List.isEmpty] at h2
          | cons p ps => simp [List.length_cons]
        have hlen : ((c :: rest).drop pat.length).length ≤ n := by
          simp only [List.length_drop, List.length_cons]
          simp only [List.length_cons] at h
          omega
        have hne := splitOnSubF_ne_nil pat n ((c :: rest).drop pat.length)
        rw [show splitOnSubF pat (n + 1) (c :: rest)
            = [] :: splitOnSubF pat n ((c :: rest).drop pat.length) from by
          simp [splitOnSubF, hp]]
        rw [getLast?_cons_of_ne_nil _ _ hne, ih _ hlen]
        rw [show lastMatchSuffixF pat (n + 1) (c :: rest)
            = some ((lastMatchSuffixF pat n ((c :: rest).drop pat.length)).getD
                ((c :: rest).drop pat.length)) from by
          simp [lastMatchSuffixF, hp]]
        rfl
      · have hlen : rest.length ≤ n := by
          simp only [List.length_cons] at h
          omega
        rw [show splitOnSubF pat (n + 1) (c :: rest)
            = consHead c (splitOnSubF pat n rest) from by
          simp [splitOnSubF, hp]]
        rw [show lastMatchSuffixF pat (n + 1) (c :: rest)
            = lastMatchSuffixF pat n rest from by
          simp [lastMatchSuffixF, hp]]
        cases hcase : lastMatchSuffixF pat n rest with
        | none =>
          rw [splitOnSubF_of_lastMatchSuffixF_none pat n rest hcase]
          rfl
        | some s =>
          have h2 := two_le_splitOnSubF pat n rest s hcase
          have hne := splitOnSubF_ne_nil pat n rest
          obtain ⟨w, ws, hws⟩ := List.exists_cons_of_ne_nil hne
          have hws2 : ws ≠ [] := by
            intro e
            rw [hws, e] at h2
            simp at h2
          have ihr := ih rest hlen
          rw [hws, getLast?_cons_of_ne_nil _ _ hws2, hcase] at ihr
          rw [hws]
          show ((c :: w) :: ws).getLast? = _
          rw [getLast?_cons_of_ne_nil _ _ hws2, ihr]
          rfl

theorem splitOnSub_getLast (pat l : List Char) :
    (splitOnSub pat l).getLast? = some ((lastMatchSuffix pat l).getD l) :=
  splitOnSubF_getLast pat l.length l (Nat.le_refl _)

/-! ## Helper lemmas about the store -/

theorem findPid_eraseRec (st : Store) (id : String) :
    Store.findPid (Store.eraseRec st id) id = none := by
  induction st with
  | nil => rfl
  | cons p rest ih =>
    obtain ⟨k, v⟩ := p
    by_cases hk : k = id <;> simp [Store.eraseRec, Store.findPid, hk, ih]

theorem findPid_insertRec (st : Store) (id : String) (pid : Nat) :
    Store.findPid (Store.insertRec st id pid) id = some pid := by
  simp [Store.insertRec, Store.findPid]

/-! ## The claims -/

/-- C2 counterexample: the claim's rule "for every line containing
`remote_port=`, the token immediately following that marker, parsed as a
`u16`, yields `PortAssigned(port)`" fails on the concrete line
`listening at remote_port=9000`: the line contains `remote_port=` and the
following token parses as `9000`, yet the classifier (whose `remote_port=`
arm sits behind an `else if` on `listening at`) yields no signal. -/
theorem classifier_claim_counterexample :
    containsSub ("remote_port=".data) ("listening at remote_port=9000".data) = true
  ∧ Option.bind
      (firstToken ((lastMatchSuffix ("remote_port=".data)
        ("listening at remote_port=9000".data)).getD
        ("listening at remote_port=9000".data)))
      parseU16 = some 9000
  ∧ classifyClient "listening at remote_port=9000" = none := by
  refine ⟨by decide, by decide, by decide⟩

/-- C2 (amended): the client-role classifier equals the reference
definition in which the `remote_port=` rule applies only to lines that do
not contain `listening at` (and a `listening at` line whose port parse
fails yields no signal rather than falling through); the three concrete
round-trip examples hold as stated. -/
theorem classifier_matches_reference :
    (∀ line : String, classifyClient line = classifyRef line)
  ∧ classifyClient "listening at 127.0.0.1:41230" = some 41230
  ∧ classifyClient "connected to server remote_port=9000 foo" = some 9000
  ∧ classifyClient "starting up" = none := by
  refine ⟨fun line => ?_, by decide, by decide, by decide⟩
  unfold classifyClient classifyRef
  by_cases h1 : containsSub ("listening at".data) line.data = true
  · simp only [h1, if_true]
    rw [splitOnChar_getLast]
  · simp only [h1, Bool.false_eq_true, if_false]
    by_cases h2 : containsSub ("remote_port=".data) line.data = true
    · simp only [h2, if_true]
      rw [splitOnSub_getLast]
    · simp only [h2, Bool.false_eq_true, if_false]

/-- C1 counterexample: the natural-exit watcher does not skip its
terminal broadcast when the id is already absent.  Concretely, after an
explicit stop of session `s1` (which broadcasts `client_stopped` and
leaves `s1` absent from the store), running the watcher's exit step still
broadcasts `client_exited`, so this session receives both terminal
events. -/
theorem terminal_event_claim_counterexample :
    (stopSession Role.client [("s1", 42)] "s1" true).2.2
      = [Act.removeRecord "s1", Act.killSignal 42,
         Act.broadcast (Event.stopped Role.client "s1")]
  ∧ Store.findPid (stopSession Role.client [("s1", 42)] "s1" true).2.1 "s1" = none
  ∧ (exitFinish Role.client (stopSession Role.client [("s1", 42)] "s1" true).2.1 "s1").2
      = [Act.removeRecord "s1", Act.broadcast (Event.exited Role.client "s1")] := by
  refine ⟨by decide, by decide, by decide⟩

/-- C1 (amended): only the explicit-stop path checks the store and skips
its terminal broadcast when the session id is absent; the natural-exit
watcher broadcasts `{role}_exited` unconditionally, whether or not the id
is still in the store.  A session whose explicit stop precedes its
natural exit therefore receives both `{role}_stopped` and
`{role}_exited`. -/
theorem terminal_event_amended (r : Role) (st st2 : Store) (id : String) (k : Bool)
    (h : Store.findPid st id = none) :
    stopSession r st id k = (StopResult.notFound, st, [])
  ∧ (exitFinish r st2 id).2
      = [Act.removeRecord id, Act.broadcast (Event.exited r id)] := by
  constructor
  · unfold stopSession
    rw [h]
  · rfl

/-- Witness for C1 (amended) at a concrete absent id. -/
theorem terminal_event_amended_witness :
    stopSession Role.client [] "s1" true = (StopResult.notFound, [], [])
  ∧ (exitFinish Role.client [("s1", 7)] "s1").2
      = [Act.removeRecord "s1", Act.broadcast (Event.exited Role.client "s1")] :=
  terminal_event_amended Role.client [] [("s1", 7)] "s1" true (by decide)

/-- C3: `Stop` on a present id removes the store entry first, then issues
the kill signal, then broadcasts `{role}_stopped`, and returns success
(the trace lists the actions in program order); `Stop` on an absent id
returns not-found with no action and an unchanged store; and two
consecutive stops of a present id return exactly one success followed by
one not-found. -/
theorem stop_semantics (r : Role) (st st2 : Store) (id : String) (pid : Nat)
    (k k2 k3 : Bool)
    (h : Store.findPid st id = some pid) (h2 : Store.findPid st2 id = none) :
    stopSession r st id k
      = (StopResult.success, Store.eraseRec st id,
         [Act.removeRecord id, Act.killSignal pid,
          Act.broadcast (Event.stopped r id)])
  ∧ stopSession r st2 id k2 = (StopResult.notFound, st2, [])
  ∧ (stopSession r st id k).1 = StopResult.success
  ∧ (stopSession r (stopSession r st id k).2.1 id k3).1 = StopResult.notFound := by
  have e1 : stopSession r st id k
      = (StopResult.success, Store.eraseRec st id,
         [Act.removeRecord id, Act.killSignal pid,
          Act.broadcast (Event.stopped r id)]) := by
    unfold stopSession
    rw [h]
  have e2 : stopSession r st2 id k2 = (StopResult.notFound, st2, []) := by
    unfold stopSession
    rw [h2]
  refine ⟨e1, e2, by rw [e1], ?_⟩
  rw [e1]
  unfold stopSession
  rw [findPid_eraseRec]

/-- Witness for C3 at a concrete store. -/
theorem stop_semantics_witness :
    stopSession Role.client [("a", 5)] "a" true
      = (StopResult.success, Store.eraseRec [("a", 5)] "a",
         [Act.removeRecord "a", Act.killSignal 5,
          Act.broadcast (Event.stopped Role.client "a")])
  ∧ stopSession Role.client [] "a" false = (StopResult.notFound, [], [])
  ∧ (stopSession Role.client [("a", 5)] "a" true).1 = StopResult.success
  ∧ (stopSession Role.client
        (stopSession Role.client [("a", 5)] "a" true).2.1 "a" true).1
      = StopResult.notFound :=
  stop_semantics Role.client [("a", 5)] [] "a" 5 true false true
    (by decide) (by decide)

/-- C4: for any store and any spawn outcome, `Start*` either succeeds —
answering the freshly generated session id together with the populated
pid, inserting exactly the `{id, pid}` record (so the id is found in the
store afterwards), and broadcasting `{role}_started` — or fails at spawn,
answering an error with no store change and no broadcast; the result is
an error precisely when the spawn failed, so a record and an error never
coexist. -/
theorem start_semantics (r : Role) (st : Store) (id : String) (pid? : Option Nat)
    (sp : Except Unit SpawnOk) :
    startSession r st id (Except.ok ⟨pid?⟩)
      = (Except.ok (id, pid?.getD 0), Store.insertRec st id (pid?.getD 0),
         [Act.insertRecord id (pid?.getD 0),
          Act.broadcast (Event.started r id (pid?.getD 0))])
  ∧ Store.findPid (startSession r st id (Except.ok ⟨pid?⟩)).2.1 id
      = some (pid?.getD 0)
  ∧ startSession r st id (Except.error ()) = (Except.error (), st, [])
  ∧ ((startSession r st id sp).1 = Except.error () ↔ sp = Except.error ()) := by
  refine ⟨rfl, findPid_insertRec st id (pid?.getD 0), rfl, ?_⟩
  cases sp with
  | ok child => simp [startSession]
  | error u => cases u; simp [startSession]

/-- C5: once the monitor task's exit step runs, the record removal
precedes the `{role}_exited` broadcast in the action trace, and the
session id is absent from the store immediately afterwards. -/
theorem exit_cleanup (r : Role) (st : Store) (id : String) :
    (exitFinish r st id).2
      = [Act.removeRecord id, Act.broadcast (Event.exited r id)]
  ∧ Store.findPid (exitFinish r st id).1 id = none :=
  ⟨rfl, findPid_eraseRec st id⟩

/-- C6: every complete output line yields exactly one `{role}_log` event
carrying that line — alone when classification yields no signal, after
the `client_port_assigned` signal when it fires — with stderr lines
tagged `is_error`; server-role output yields only log events, never a
port signal. -/
theorem log_unconditional (id toAddr line : String) :
    Event.log Role.client id line false ∈ clientStdoutLine id toAddr line
  ∧ (classifyClient line = none →
      clientStdoutLine id toAddr line = [Event.log Role.client id line false])
  ∧ (∀ p : Nat, classifyClient line = some p →
      clientStdoutLine id toAddr line
        = [Event.portAssigned id p (toAddr ++ ":" ++ toString p),
           Event.log Role.client id line false])
  ∧ clientStderrLine id line = [Event.log Role.client id line true]
  ∧ (∀ (isErr : Bool) (e : Event), e ∈ serverOutLine id line isErr →
      e = Event.log Role.server id line isErr) := by
  refine ⟨?_, ?_, ?_, rfl, ?_⟩
  · unfold clientStdoutLine
    cases hc : classifyClient line <;> simp
  · intro hn
    unfold clientStdoutLine
    rw [hn]
    rfl
  · intro p hp
    unfold clientStdoutLine
    rw [hp]
    rfl
  · intro isErr e he
    simpa [serverOutLine] using he

/-- Witness for C6 at concrete lines (one unclassified, one classified). -/
theorem log_unconditional_witness :
    clientStdoutLine "i" "t" "starting up"
      = [Event.log Role.client "i" "starting up" false]
  ∧ clientStdoutLine "i" "t" "listening at h:80"
      = [Event.portAssigned "i" 80 ("t" ++ ":" ++ toString 80),
         Event.log Role.client "i" "listening at h:80" false] :=
  ⟨(log_unconditional "i" "t" "starting up").2.1 (by decide),
   (log_unconditional "i" "t" "listening at h:80").2.2.1 80 (by decide)⟩

/-- C7 counterexample: the stdout and stderr loops do not run
independently — they are sequential within the single monitor task.
With stdout still open and a complete stderr line already delivered (its
stream even closed), no stderr event has been broadcast; once stdout
closes, the stderr line is delivered. -/
theorem reader_independence_counterexample :
    clientMonitorEvents "s1" "t" ⟨[], false⟩ ⟨["oops"], true⟩ = []
  ∧ clientMonitorEvents "s1" "t" ⟨[], true⟩ ⟨["oops"], true⟩
      = [Event.log Role.client "s1" "oops" true] := by
  refine ⟨by decide, by decide⟩

/-- C7 (amended): within one monitor task the stdout loop runs to
end-of-stream before the stderr loop starts: stdout line delivery never
depends on the state of the stderr stream, but no stderr line is
delivered while stdout is unclosed, and after stdout closes the events
are all stdout events followed by all stderr events.  The same holds for
the server monitor. -/
theorem reader_sequential (id toAddr : String) (outL errL : List String)
    (ec : Bool) (err1 err2 : StreamState) :
    clientMonitorEvents id toAddr ⟨outL, false⟩ err1
      = clientMonitorEvents id toAddr ⟨outL, false⟩ err2
  ∧ clientMonitorEvents id toAddr ⟨outL, false⟩ ⟨errL, ec⟩
      = (outL.map (fun line => clientStdoutLine id toAddr line)).flatten
  ∧ clientMonitorEvents id toAddr ⟨outL, true⟩ ⟨errL, ec⟩
      = (outL.map (fun line => clientStdoutLine id toAddr line)).flatten
        ++ (errL.map (fun line => clientStderrLine id line)).flatten
  ∧ serverMonitorEvents id ⟨outL, false⟩ ⟨errL, ec⟩
      = (outL.map (fun line => serverOutLine id line false)).flatten
  ∧ serverMonitorEvents id ⟨outL, true⟩ ⟨errL, ec⟩
      = (outL.map (fun line => serverOutLine id line false)).flatten
        ++ (errL.map (fun line => serverOutLine id line true)).flatten :=
  ⟨rfl, rfl, rfl, rfl, rfl⟩

/-- C8: a text frame parsing as `{type:"ping", correlationId}` earns
exactly one reply — a `{type:"pong"}` echoing the same correlation id,
sent to that observer's own connection; parsed messages of any other
type, unparseable text, and non-text frames produce no reply; and every
reply the handler ever produces is addressed to the handling
connection itself. -/
theorem ping_pong (connId : String) (w w2 : WsMsg) (m : Inbound)
    (tgt : String) (rp : WsMsg)
    (hping : w.msg_type = "ping") (h2 : w2.msg_type ≠ "ping")
    (hmem : (tgt, rp) ∈ recvHandle connId m) :
    recvHandle connId (Inbound.textOk w) = [(connId, ⟨"pong", "\x7b\x7d", w.id⟩)]
  ∧ recvHandle connId (Inbound.textOk w2) = []
  ∧ recvHandle connId Inbound.textBad = []
  ∧ recvHandle connId Inbound.nonText = []
  ∧ tgt = connId := by
  refine ⟨?_, ?_, rfl, rfl, ?_⟩
  · simp [recvHandle, hping, pongReply]
  · simp [recvHandle, h2]
  · cases m with
    | textOk w' =>
      by_cases hw : w'.msg_type = "ping"
      · simp [recvHandle, hw] at hmem
        exact hmem.1
      · simp [recvHandle, hw] at hmem
    | textBad => cases hmem
    | nonText => cases hmem

/-- Witness for C8 at concrete frames. -/
theorem ping_pong_witness :
    recvHandle "conn" (Inbound.textOk ⟨"ping", "d", some "42"⟩)
      = [("conn", ⟨"pong", "\x7b\x7d", some "42"⟩)]
  ∧ recvHandle "conn" (Inbound.textOk ⟨"status", "d", none⟩) = []
  ∧ recvHandle "conn" Inbound.textBad = []
  ∧ recvHandle "conn" Inbound.nonText = []
  ∧ "conn" = "conn" :=
  ping_pong "conn" ⟨"ping", "d", some "42"⟩ ⟨"status", "d", none⟩
    (Inbound.textOk ⟨"ping", "d", some "42"⟩) "conn" ⟨"pong", "\x7b\x7d", some "42"⟩
    rfl (by decide) (by decide)

/-- C9: a successful spawn whose `child.id()` is `None` still creates the
session: the response and the inserted store record both carry the
fallback pid `0`, and no error is returned. -/
theorem pid_fallback (r : Role) (st : Store) (id : String) :
    (startSession r st id (Except.ok ⟨none⟩)).1 = Except.ok (id, 0)
  ∧ Store.findPid (startSession r st id (Except.ok ⟨none⟩)).2.1 id = some 0
  ∧ (startSession r st id (Except.ok ⟨none⟩)).2.2
      = [Act.insertRecord id 0, Act.broadcast (Event.started r id 0)] :=
  ⟨rfl, findPid_insertRec st id 0, rfl⟩

/-- C10: the stop handlers discard the result of the external kill
command (`let _ = Command::new("kill")...output()`): the handler's entire
result is independent of the kill outcome, and for a present id it is
success with the `{role}_stopped` broadcast regardless — success does not
certify that the subprocess terminated. -/
theorem kill_result_discarded (r : Role) (st : Store) (id : String) (pid : Nat)
    (k k2 : Bool) (h : Store.findPid st id = some pid) :
    stopSession r st id k = stopSession r st id k2
  ∧ (stopSession r st id k).1 = StopResult.success
  ∧ Act.broadcast (Event.stopped r id) ∈ (stopSession r st id k).2.2
  ∧ Act.killSignal pid ∈ (stopSession r st id k).2.2 := by
  have e1 : stopSession r st id k
      = (StopResult.success, Store.eraseRec st id,
         [Act.removeRecord id, Act.killSignal pid,
          Act.broadcast (Event.stopped r id)]) := by
    unfold stopSession
    rw [h]
  refine ⟨rfl, by rw [e1], by rw [e1]; simp, by rw [e1]; simp⟩

/-- Witness for C10 at a concrete store. -/
theorem kill_result_discarded_witness :
    stopSession Role.server [("b", 9)] "b" true
      = stopSession Role.server [("b", 9)] "b" false
  ∧ (stopSession Role.server [("b", 9)] "b" true).1 = StopResult.success
  ∧ Act.broadcast (Event.stopped Role.server "b")
      ∈ (stopSession Role.server [("b", 9)] "b" true).2.2
  ∧ Act.killSignal 9 ∈ (stopSession Role.server [("b", 9)] "b" true).2.2 :=
  kill_result_discarded Role.server [("b", 9)] "b" 9 true false (by decide)

end BoreGui
